import Mathlib

/-!
Shallow embedding of the dependency-resolution and update-classification
subsystem of `comfyui_pip_update_audit.py` and
`requirements_checker/requirements_parser.py`, together with theorems
settling the specification claims about it.

Machine strings are `String`, Python `None`-able values are `Option`,
fallible external library calls (`packaging`'s `Version`, `SpecifierSet`,
`requests`/JSON) are injected as `Option`-returning functions, and every
`try/except` of the source is an explicit `match` on those options.
-/

namespace PipAudit

/-- ASCII lower-casing of one character, modelling Python's `str.lower()`
on the ASCII range (all strings handled by the tool's comparisons are
ASCII). -/
def lowerChar (c : Char) : Char :=
  if 'A' ≤ c ∧ c ≤ 'Z' then Char.ofNat (c.toNat + 32) else c

/-- `s.lower()` on ASCII strings. -/
def asciiLower (s : String) : String := String.mk (s.data.map lowerChar)

/-- `str.strip()`: drop leading and trailing whitespace. -/
def pyStrip (s : String) : String :=
  String.mk (((s.data.dropWhile Char.isWhitespace).reverse.dropWhile
    Char.isWhitespace).reverse)

/-- Substring occurrence test on character lists (`needle in hay` in Python). -/
def listContainsSub (needle : List Char) : List Char → Bool
  | [] => needle.isEmpty
  | c :: rest => needle.isPrefixOf (c :: rest) || listContainsSub needle rest

/-- `needle in hay` for Python strings. -/
def containsSub (hay needle : String) : Bool := listContainsSub needle.data hay.data

/-- Code-point comparison of character lists: Python's `str.__le__`. -/
def pyStrLeL : List Char → List Char → Bool
  | [], _ => true
  | _ :: _, [] => false
  | a :: as, b :: bs => if a = b then pyStrLeL as bs else decide (a.toNat < b.toNat)

/-- Python string order `a <= b`, used by `sorted(...)` on strings. -/
def pyStrLe (a b : String) : Bool := pyStrLeL a.data b.data

/-- Python's `sorted(set(xs))` for strings. -/
def pySortedSet (xs : List String) : List String :=
  List.insertionSort (fun a b => pyStrLe a b = true) xs.dedup

/-- Character class `[-_.]` of the canonicalization regex. -/
def isSepChar (c : Char) : Bool := c = '-' || c = '_' || c = '.'

/-- Worker for `re.sub(r"[-_.]+", "-", s)`: the flag records whether the
previous character belonged to a separator run already replaced. -/
def collapseGo : Bool → List Char → List Char
  | _, [] => []
  | prevSep, c :: rest =>
    if isSepChar c then
      if prevSep then collapseGo true rest else '-' :: collapseGo true rest
    else c :: collapseGo false rest

/-- `re.sub(r"[-_.]+", "-", s)`: each maximal run of `-`, `_`, `.` becomes
a single `-`. -/
def collapseSeps (cs : List Char) : List Char := collapseGo false cs

/-- `_canonicalize_simple` of `comfyui_pip_update_audit.py`:
`re.sub(r"[-_.]+", "-", name.strip().lower())`. -/
def _canonicalize_simple (name : String) : String :=
  String.mk (collapseSeps (asciiLower (pyStrip name)).data)

/-! ### Version resolver: `choose_max` -/

/-- A `packaging.specifiers.SpecifierSet` as `choose_max` consumes it:
`contains v` models the membership test `v in s`, and `str` models
`str(s)` (the empty string exactly when the set has no components, which
is what the source's truthiness tests `if str(s)` / `if str(c.spec)`
check). -/
structure SpecSet (V : Type) where
  contains : V → Bool
  str : String

/-- `choose_max(versions, specs)` of `comfyui_pip_update_audit.py`:
returns `None` on an empty list, the last element when `specs` is empty,
otherwise the last element of the sublist satisfying every non-empty
specifier (`feas[-1] if feas else None`). -/
def choose_max {V : Type} (versions : List V) (specs : List (SpecSet V)) : Option V :=
  if versions.isEmpty then none
  else if specs.isEmpty then versions.getLast?
  else
    let feas := versions.filter fun v =>
      (specs.filter fun s => s.str ≠ "").all fun s => s.contains v
    feas.getLast?

theorem getLast?_mem' {α : Type} : ∀ {l : List α} {m : α}, l.getLast? = some m → m ∈ l := by
  intro l
  induction l with
  | nil => intro m h; simp [List.getLast?] at h
  | cons a t ih =>
    intro m h
    cases t with
    | nil => simp [List.getLast?] at h; simp [h]
    | cons b t2 =>
      rw [List.getLast?_cons_cons] at h
      exact List.mem_cons_of_mem a (ih h)

theorem sorted_le_getLast? {V : Type} [LinearOrder V] :
    ∀ {l : List V}, l.Sorted (· ≤ ·) → ∀ {m : V}, l.getLast? = some m →
      ∀ x ∈ l, x ≤ m := by
  intro l
  induction l with
  | nil => intro _ m h; simp [List.getLast?] at h
  | cons a t ih =>
    intro hs m hm x hx
    cases t with
    | nil =>
      simp [List.getLast?] at hm
      rcases List.mem_singleton.mp hx with rfl
      exact le_of_eq hm
    | cons b t2 =>
      rw [List.getLast?_cons_cons] at hm
      rcases List.mem_cons.mp hx with rfl | hx2
      · exact le_trans (List.rel_of_sorted_cons hs m (getLast?_mem' hm)) le_rfl
      · exact ih (List.sorted_cons.mp hs).2 hm x hx2

theorem getLast?_isSome_of_ne_nil {α : Type} :
    ∀ {l : List α}, l ≠ [] → ∃ m, l.getLast? = some m := by
  intro l
  induction l with
  | nil => intro h; exact absurd rfl h
  | cons a t ih =>
    intro _
    cases t with
    | nil => exact ⟨a, rfl⟩
    | cons b t2 =>
      rcases ih (List.cons_ne_nil _ _) with ⟨m, hm⟩
      exact ⟨m, by rw [List.getLast?_cons_cons]; exact hm⟩

/-- Claim C1, amended: when `available_versions` is sorted ascending (as both
call sites produce it, via `sorted(...)`), `choose_max` returns either `none`
or a version present in the list, satisfying every non-empty specifier, and
greatest among the versions satisfying them. -/
theorem choose_max_sound {V : Type} [LinearOrder V] (versions : List V)
    (specs : List (SpecSet V)) (hspecs : specs ≠ [])
    (hsort : versions.Sorted (· ≤ ·)) :
    choose_max versions specs = none ∨
    ∃ v, choose_max versions specs = some v ∧ v ∈ versions ∧
      (∀ s ∈ specs, s.str ≠ "" → s.contains v = true) ∧
      ∀ w ∈ versions, (∀ s ∈ specs, s.str ≠ "" → s.contains w = true) → w ≤ v := by
  have hspecs' : specs.isEmpty = false := by
    cases specs with
    | nil => exact absurd rfl hspecs
    | cons a t => rfl
  by_cases hv : versions.isEmpty
  · left
    simp [choose_max, hv]
  · have hch : choose_max versions specs =
        (versions.filter fun v =>
          (specs.filter fun s => s.str ≠ "").all fun s => s.contains v).getLast? := by
      simp [choose_max, hv, hspecs']
    cases hl : (versions.filter fun v =>
        (specs.filter fun s => s.str ≠ "").all fun s => s.contains v).getLast? with
    | none => left; rw [hch, hl]
    | some v =>
      right
      have hvmem := getLast?_mem' hl
      have hvf := List.mem_filter.mp hvmem
      have hfeas_sorted : (versions.filter fun v =>
          (specs.filter fun s => s.str ≠ "").all fun s => s.contains v).Sorted (· ≤ ·) :=
        hsort.filter _
      refine ⟨v, by rw [hch, hl], hvf.1, ?_, ?_⟩
      · intro s hs hstr
        have := List.all_eq_true.mp hvf.2 s
          (List.mem_filter.mpr ⟨hs, decide_eq_true hstr⟩)
        exact this
      · intro w hw hsat
        have hwf : w ∈ versions.filter fun v =>
            (specs.filter fun s => s.str ≠ "").all fun s => s.contains v := by
          refine List.mem_filter.mpr ⟨hw, List.all_eq_true.mpr ?_⟩
          intro s hsf
          have hsf' := List.mem_filter.mp hsf
          exact hsat s hsf'.1 (of_decide_eq_true hsf'.2)
        exact sorted_le_getLast? hfeas_sorted hl w hwf

/-- A concrete non-empty specifier over natural-number versions:
satisfied by every version at least 1, rendered as a non-empty string. -/
def geOneSpec : SpecSet ℕ := ⟨fun v => decide (1 ≤ v), ">=1"⟩

/-- Counterexample to claim C1 as stated: on the unsorted list `[2, 1]`
with the non-empty specifier `geOneSpec`, `choose_max` returns `1`, yet
`2` is present, satisfies the specifier, and exceeds `1` — so the result
is not the greatest satisfying version for arbitrary input order. -/
theorem choose_max_not_greatest_unsorted :
    choose_max [2, 1] [geOneSpec] = some 1 ∧
    ¬ (∀ w ∈ ([2, 1] : List ℕ), geOneSpec.contains w = true → w ≤ 1) := by
  decide

/-- Witness instantiating `choose_max_sound` on sorted input `[1, 2]`. -/
theorem choose_max_sound_witness :
    choose_max [1, 2] [geOneSpec] = none ∨
    ∃ v, choose_max [1, 2] [geOneSpec] = some v ∧ v ∈ ([1, 2] : List ℕ) ∧
      (∀ s ∈ [geOneSpec], s.str ≠ "" → s.contains v = true) ∧
      ∀ w ∈ ([1, 2] : List ℕ),
        (∀ s ∈ [geOneSpec], s.str ≠ "" → s.contains w = true) → w ≤ v :=
  choose_max_sound [1, 2] [geOneSpec] (List.cons_ne_nil _ _) (by decide)

/-- Claim C2, amended: with no specifiers, `choose_max` returns `none` on the
empty list and the maximum on a non-empty list sorted ascending (the source
takes `versions[-1]`, the last element, which is the maximum only for sorted
input — and both call sites sort first). -/
theorem choose_max_no_specs {V : Type} [LinearOrder V] (versions : List V)
    (hsort : versions.Sorted (· ≤ ·)) :
    (versions = [] → choose_max versions [] = none) ∧
    (versions ≠ [] → ∃ m, choose_max versions [] = some m ∧ m ∈ versions ∧
      ∀ w ∈ versions, w ≤ m) := by
  constructor
  · intro h; subst h; rfl
  · intro hne
    have hv : versions.isEmpty = false := by
      cases versions with
      | nil => exact absurd rfl hne
      | cons a t => rfl
    have hch : choose_max versions [] = versions.getLast? := by
      simp [choose_max, hv]
    rcases getLast?_isSome_of_ne_nil hne with ⟨m, hm⟩
    exact ⟨m, by rw [hch, hm], getLast?_mem' hm,
      fun w hw => sorted_le_getLast? hsort hm w hw⟩

/-- Counterexample to claim C2 as stated: for the unsorted list `[2, 1]`
and no specifiers, `choose_max` returns the last element `1`, not the
maximum `2`. -/
theorem choose_max_last_not_max_unsorted :
    choose_max [2, 1] ([] : List (SpecSet ℕ)) = some 1 ∧
    (2 : ℕ) ∈ ([2, 1] : List ℕ) ∧ ¬ ((2 : ℕ) ≤ 1) := by
  decide

/-- Witness instantiating `choose_max_no_specs` on sorted input `[1, 2]`. -/
theorem choose_max_no_specs_witness :
    (([1, 2] : List ℕ) = [] → choose_max [1, 2] ([] : List (SpecSet ℕ)) = none) ∧
    (([1, 2] : List ℕ) ≠ [] → ∃ m,
      choose_max [1, 2] ([] : List (SpecSet ℕ)) = some m ∧ m ∈ ([1, 2] : List ℕ) ∧
      ∀ w ∈ ([1, 2] : List ℕ), w ≤ m) :=
  choose_max_no_specs [1, 2] (by decide)

/-! ### Installability prober: `dry_run` -/

/-- Outcome of the `subprocess.run(pip + ["install", "--dry-run", ...])`
call: either `subprocess.TimeoutExpired` was raised, or the process
completed with an exit code and captured combined output (`p.stdout`,
holding stdout and stderr since stderr is redirected to stdout; `none`
models a `None` stdout, folded to `""` by the source's `or ""`). -/
inductive RunOutcome where
  | timeoutExpired
  | completed (returncode : Int) (stdout : Option String)

/-- `dry_run(pip, pkgs, timeout_s)` of `comfyui_pip_update_audit.py`:
empty package list is trivially ok; a timeout fails with a timeout
diagnostic; exit code 0 is ok; a non-zero exit whose lower-cased output
contains one of the dry-run-unsupported markers is treated as ok
(optimistic fallback); any other non-zero exit fails with the captured
output as the diagnostic. -/
def dry_run (timeout_s : ℕ) (outcome : RunOutcome)
    (pkgs : List (String × String)) : Bool × String :=
  if pkgs.isEmpty then (true, "")
  else
    match outcome with
    | .timeoutExpired => (false, "timeout after " ++ toString timeout_s ++ "s")
    | .completed rc stdout =>
      let out := stdout.getD ""
      if rc = 0 then (true, out)
      else
        let lowered := asciiLower out
        if containsSub lowered "no such option" ||
            containsSub lowered "unrecognized arguments" ||
            containsSub lowered "usage:" then (true, out)
        else (false, out)

/-- Claim C5: for a non-empty package list and a completed subprocess,
`dry_run` returns ok with the output when the exit code is 0; ok with the
output when the exit code is non-zero but the lower-cased combined output
contains a dry-run-unsupported marker (such as "no such option: --dry-run");
and not-ok with the captured output as diagnostic for every other
non-zero exit. -/
theorem dry_run_exit_code_semantics (timeout_s : ℕ) (rc : Int)
    (stdout : Option String) (pkgs : List (String × String))
    (hne : pkgs ≠ []) :
    (rc = 0 →
      dry_run timeout_s (.completed rc stdout) pkgs = (true, stdout.getD "")) ∧
    (rc ≠ 0 →
      (containsSub (asciiLower (stdout.getD "")) "no such option" ||
        containsSub (asciiLower (stdout.getD "")) "unrecognized arguments" ||
        containsSub (asciiLower (stdout.getD "")) "usage:") = true →
      dry_run timeout_s (.completed rc stdout) pkgs = (true, stdout.getD "")) ∧
    (rc ≠ 0 →
      (containsSub (asciiLower (stdout.getD "")) "no such option" ||
        containsSub (asciiLower (stdout.getD "")) "unrecognized arguments" ||
        containsSub (asciiLower (stdout.getD "")) "usage:") = false →
      dry_run timeout_s (.completed rc stdout) pkgs = (false, stdout.getD "")) := by
  have hp : pkgs.isEmpty = false := by
    cases pkgs with
    | nil => exact absurd rfl hne
    | cons a t => rfl
  refine ⟨fun h0 => ?_, fun hnz hmark => ?_, fun hnz hmark => ?_⟩
  · simp [dry_run, hp, h0]
  · simp [dry_run, hp, hnz, hmark]
  · simp [dry_run, hp, hnz, hmark]

/-- Witness for `dry_run_exit_code_semantics`: a pip that exits with code 2
and prints "no such option: --dry-run" is treated as ok (optimistic
fallback), per the second conjunct. -/
theorem dry_run_exit_code_semantics_witness :
    dry_run 60 (.completed 2 (some "Usage: pip install ...\nno such option: --dry-run"))
        [("numpy", "1.24")] =
      (true, "Usage: pip install ...\nno such option: --dry-run") :=
  (dry_run_exit_code_semantics 60 2
      (some "Usage: pip install ...\nno such option: --dry-run")
      [("numpy", "1.24")] (by decide)).2.1 (by decide) (by decide)

/-! ### Index query: `fetch_pypi` -/

/-- The interface of the external `packaging` library as `fetch_pypi` uses
it: `parseVersion` is the fallible constructor `Version(v)` (`none` models
a raised `InvalidVersion`), `isPrerelease`/`isDevrelease` the properties
`ver.is_prerelease`/`ver.is_devrelease`, `verStr` is `str(ver)`,
`parseSpec` the fallible constructor `SpecifierSet(rp)`, and
`specContains sp py` the call `sp.contains(py, prereleases=True)`. -/
structure Packaging (V S : Type) where
  parseVersion : String → Option V
  isPrerelease : V → Bool
  isDevrelease : V → Bool
  verStr : V → String
  parseSpec : String → Option S
  specContains : S → String → Bool

/-- One file entry of a release in the PyPI JSON: `requires_python` is
`f.get("requires_python")`, `none` when the key is absent or null (the
source's `if not rp` also treats the empty string as absent). -/
structure ReleaseFile where
  requires_python : Option String
deriving DecidableEq

/-- The JSON document shape `fetch_pypi` consumes: `releases` is the dict
`data.get("releases", {})` as an association list with distinct keys (an
absent key yields the empty list); a `none` value models JSON null, which
the source folds to `[]` via `or []`. -/
structure IndexData where
  releases : List (String × Option (List ReleaseFile))
deriving DecidableEq

/-- Outcome of `requests.get(...)` plus `r.json()`: `netError` models a
raised network exception, otherwise the HTTP status code together with
the fallible JSON body (`none` models `r.json()` raising on malformed
JSON). -/
inductive FetchResponse where
  | netError
  | status (code : Int) (body : Option IndexData)

/-- Whether one release file lets the running interpreter through: falsy
`requires_python` accepts, an unparsable specifier accepts (the
source breaks with `compatible = True` on exception), and otherwise the
specifier must contain the interpreter version. -/
def fileAccepts {V S : Type} (pk : Packaging V S) (pyVer : String)
    (f : ReleaseFile) : Bool :=
  match f.requires_python with
  | none => true
  | some rp =>
    if rp = "" then true
    else
      match pk.parseSpec rp with
      | none => true
      | some sp => pk.specContains sp pyVer

/-- The body of `fetch_pypi`'s `for v in data.get("releases", {})` loop for
one release: an unparsable version string is skipped (`except: pass`), a
pre-release or dev release goes to the filtered list, and otherwise the
file loop (`files.any (fileAccepts ...)`, the for/break loop of the
source) plus the empty-file-list override decides between the compatible
versions and the skipped descriptions. -/
def releaseStep {V S : Type} (pk : Packaging V S) (pyVer : String)
    (v : String) (filesOpt : Option (List ReleaseFile)) :
    List V × List String × List String :=
  match pk.parseVersion v with
  | none => ([], [], [])
  | some ver =>
    if pk.isPrerelease ver || pk.isDevrelease ver then ([], [], [v])
    else
      let files := filesOpt.getD []
      let compatible := if files.isEmpty then true
        else files.any (fileAccepts pk pyVer)
      if compatible then ([ver], [], [])
      else
        let reason := match files with
          | [] => "Requires-Python mismatch"
          | f :: _ =>
            match f.requires_python with
            | some rp => rp
            | none => "None"
        ([], [pk.verStr ver ++ " (" ++ reason ++ ")"], [])

/-- The whole release loop of `fetch_pypi`, accumulating the three lists in
iteration order. -/
def fetchLoop {V S : Type} (pk : Packaging V S) (pyVer : String) :
    List (String × Option (List ReleaseFile)) →
    List V × List String × List String
  | [] => ([], [], [])
  | (v, filesOpt) :: rest =>
    let head := releaseStep pk pyVer v filesOpt
    let tail := fetchLoop pk pyVer rest
    (head.1 ++ tail.1, head.2.1 ++ tail.2.1, head.2.2 ++ tail.2.2)

/-- Python's `sorted(set(xs))` under a linear order. -/
def pySortedSetV {V : Type} [LinearOrder V] (xs : List V) : List V :=
  List.insertionSort (· ≤ ·) xs.dedup

/-- `fetch_pypi(name)` of `comfyui_pip_update_audit.py`, with the HTTP
response injected: every failure path of the enclosing `try` (network
error, non-200 status, malformed JSON) returns three empty lists;
otherwise the release loop runs and the version and filtered lists are
deduplicated and sorted (`sorted(set(...))`), while the skipped list
keeps iteration order. -/
def fetch_pypi {V S : Type} [LinearOrder V] (pk : Packaging V S)
    (pyVer : String) (resp : FetchResponse) :
    List V × List String × List String :=
  match resp with
  | .netError => ([], [], [])
  | .status code body =>
    if code ≠ 200 then ([], [], [])
    else
      match body with
      | none => ([], [], [])
      | some data =>
        let r := fetchLoop pk pyVer data.releases
        (pySortedSetV r.1, r.2.1, pySortedSet r.2.2)

theorem mem_pySortedSetV {V : Type} [LinearOrder V] {a : V} {xs : List V} :
    a ∈ pySortedSetV xs ↔ a ∈ xs := by
  rw [pySortedSetV, (List.perm_insertionSort _ _).mem_iff]
  exact List.mem_dedup

theorem releaseStep_stable {V S : Type} (pk : Packaging V S) (pyVer v : String)
    (filesOpt : Option (List ReleaseFile)) :
    ∀ w ∈ (releaseStep pk pyVer v filesOpt).1,
      pk.isPrerelease w = false ∧ pk.isDevrelease w = false := by
  intro w hw
  unfold releaseStep at hw
  split at hw
  · simp at hw
  · next ver hp =>
    split at hw
    · simp at hw
    · next hpre =>
      simp only [] at hw
      split at hw
      · rcases List.mem_singleton.mp hw with rfl
        exact Bool.or_eq_false_iff.mp (Bool.not_eq_true _ ▸ (by simpa using hpre))
      · split at hw
        · rcases List.mem_singleton.mp hw with rfl
          exact Bool.or_eq_false_iff.mp (Bool.not_eq_true _ ▸ (by simpa using hpre))
        · simp at hw

theorem fetchLoop_stable {V S : Type} (pk : Packaging V S) (pyVer : String) :
    ∀ rel : List (String × Option (List ReleaseFile)),
      ∀ v ∈ (fetchLoop pk pyVer rel).1,
        pk.isPrerelease v = false ∧ pk.isDevrelease v = false := by
  intro rel
  induction rel with
  | nil => intro v hv; simp [fetchLoop] at hv
  | cons e rest ih =>
    rcases e with ⟨vs, filesOpt⟩
    intro v hv
    rw [fetchLoop] at hv
    rcases List.mem_append.mp hv with hhead | htail
    · exact releaseStep_stable pk pyVer vs filesOpt v hhead
    · exact ih v htail

/-- Claim C3, amended: `fetch_pypi` excludes pre-release and dev versions
from the returned available versions unconditionally — every version it
returns is stable, whatever the constraints or the rest of the index
data. (There is no fallback to pre-releases when no stable version
satisfies the constraints.) -/
theorem fetch_pypi_stable_only {V S : Type} [LinearOrder V]
    (pk : Packaging V S) (pyVer : String) (resp : FetchResponse) :
    ∀ v ∈ (fetch_pypi pk pyVer resp).1,
      pk.isPrerelease v = false ∧ pk.isDevrelease v = false := by
  intro v hv
  unfold fetch_pypi at hv
  split at hv
  · simp at hv
  · next code body =>
    split at hv
    · simp at hv
    · split at hv
      · simp at hv
      · next data =>
        exact fetchLoop_stable pk pyVer data.releases v (mem_pySortedSetV.mp hv)

/-- A concrete instantiation of the `packaging` interface over
natural-number versions, for evaluating the embedding on closed inputs:
"1.0" parses to `10` (stable), "2.0rc1" parses to `21` (odd numbers mark
pre-releases), everything else fails to parse. -/
def toyPackaging : Packaging ℕ Unit :=
  { parseVersion := fun s =>
      if s = "1.0" then some 10 else if s = "2.0rc1" then some 21 else none
    isPrerelease := fun v => decide (v % 2 = 1)
    isDevrelease := fun _ => false
    verStr := fun v => toString v
    parseSpec := fun _ => none
    specContains := fun _ _ => false }

/-- The constraint ">=2.0" over toy versions: satisfied from `20` up. -/
def geTwoSpec : SpecSet ℕ := ⟨fun v => decide (20 ≤ v), ">=2.0"⟩

/-- An index document with one stable release "1.0" and one pre-release
"2.0rc1", both with empty file lists. -/
def preIndexData : IndexData := ⟨[("1.0", some []), ("2.0rc1", some [])]⟩

/-- Counterexample to claim C3 as stated: against `preIndexData` and the
constraint ">=2.0", no stable version satisfies the constraints and the
pre-release "2.0rc1" (parsing to `21`) does satisfy them, yet `fetch_pypi`
still excludes it from the candidate set (it lands in the filtered list),
so `choose_max` returns `none` instead of ever returning the
pre-release. -/
theorem fetch_pypi_no_prerelease_fallback :
    fetch_pypi toyPackaging "3.10" (.status 200 (some preIndexData)) =
      ([10], [], ["2.0rc1"]) ∧
    toyPackaging.parseVersion "2.0rc1" = some 21 ∧
    toyPackaging.isPrerelease 21 = true ∧
    geTwoSpec.contains 21 = true ∧
    (∀ w ∈ ([10] : List ℕ), geTwoSpec.contains w = false) ∧
    choose_max [10] [geTwoSpec] = none := by
  decide

/-- Witness instantiating `fetch_pypi_stable_only`: the returned version
`10` is neither a pre-release nor a dev release. -/
theorem fetch_pypi_stable_only_witness :
    10 ∈ (fetch_pypi toyPackaging "3.10" (.status 200 (some preIndexData))).1 ∧
    (toyPackaging.isPrerelease 10 = false ∧ toyPackaging.isDevrelease 10 = false) :=
  ⟨by decide, fetch_pypi_stable_only toyPackaging "3.10"
    (.status 200 (some preIndexData)) 10 (by decide)⟩

theorem fileAccepts_of_not_reject {V S : Type} (pk : Packaging V S)
    (pyVer : String) (f : ReleaseFile)
    (h : ¬ ∃ rp, f.requires_python = some rp ∧ rp ≠ "" ∧
      ∃ sp, pk.parseSpec rp = some sp ∧ pk.specContains sp pyVer = false) :
    fileAccepts pk pyVer f = true := by
  unfold fileAccepts
  cases hrp : f.requires_python with
  | none => rfl
  | some rp =>
    by_cases he : rp = ""
    · simp [he]
    · cases hsp : pk.parseSpec rp with
      | none => simp [he, hsp]
      | some sp =>
        by_cases hc : pk.specContains sp pyVer = true
        · simp [he, hsp, hc]
        · exact absurd ⟨rp, hrp, he, sp, hsp, by simpa using hc⟩ h

theorem releaseStep_compat {V S : Type} (pk : Packaging V S) (pyVer v : String)
    (filesOpt : Option (List ReleaseFile)) (ver : V)
    (hp : pk.parseVersion v = some ver)
    (hpre : pk.isPrerelease ver = false) (hdev : pk.isDevrelease ver = false)
    (hcompat : filesOpt.getD [] = [] ∨
      (filesOpt.getD []).any (fileAccepts pk pyVer) = true) :
    (releaseStep pk pyVer v filesOpt).1 = [ver] := by
  rcases hcompat with hemp | hany
  · simp [releaseStep, hp, hpre, hdev, hemp]
  · by_cases hemp2 : (filesOpt.getD []).isEmpty = true
    · simp [releaseStep, hp, hpre, hdev, hemp2]
    · simp only [List.any_eq_true] at hany
      simp [releaseStep, hp, hpre, hdev, hemp2, hany]

theorem mem_fetchLoop_of_entry {V S : Type} (pk : Packaging V S)
    (pyVer : String) {v : String} {filesOpt : Option (List ReleaseFile)}
    {ver : V} :
    ∀ {rel : List (String × Option (List ReleaseFile))},
      (v, filesOpt) ∈ rel → ver ∈ (releaseStep pk pyVer v filesOpt).1 →
      ver ∈ (fetchLoop pk pyVer rel).1 := by
  intro rel
  induction rel with
  | nil => intro h _; simp at h
  | cons e rest ih =>
    intro hmem hstep
    rw [fetchLoop]
    rcases List.mem_cons.mp hmem with heq | htail
    · rcases e with ⟨a, b⟩
      obtain ⟨ha, hb⟩ := Prod.mk.injEq .. ▸ heq.symm
      subst ha; subst hb
      exact List.mem_append.mpr (Or.inl hstep)
    · exact List.mem_append.mpr (Or.inr (ih htail hstep))

theorem fetch_pypi_ok_fst {V S : Type} [LinearOrder V] (pk : Packaging V S)
    (pyVer : String) (data : IndexData) :
    (fetch_pypi pk pyVer (.status 200 (some data))).1 =
      pySortedSetV (fetchLoop pk pyVer data.releases).1 := by
  simp [fetch_pypi]

/-- Claim C9: a stable release with an empty file list is always included
in the available versions; and a stable release can only be excluded when
its file list is non-empty and every file carries an explicit, non-empty,
parsable `requires_python` specifier that rejects the running
interpreter — so an absent or unparsable record never excludes it. -/
theorem fetch_pypi_empty_files_compatible {V S : Type} [LinearOrder V]
    (pk : Packaging V S) (pyVer : String) (data : IndexData) (v : String)
    (filesOpt : Option (List ReleaseFile)) (ver : V)
    (hmem : (v, filesOpt) ∈ data.releases)
    (hp : pk.parseVersion v = some ver)
    (hpre : pk.isPrerelease ver = false) (hdev : pk.isDevrelease ver = false) :
    (filesOpt.getD [] = [] →
      ver ∈ (fetch_pypi pk pyVer (.status 200 (some data))).1) ∧
    (ver ∉ (fetch_pypi pk pyVer (.status 200 (some data))).1 →
      filesOpt.getD [] ≠ [] ∧
      ∀ f ∈ filesOpt.getD [], ∃ rp, f.requires_python = some rp ∧ rp ≠ "" ∧
        ∃ sp, pk.parseSpec rp = some sp ∧ pk.specContains sp pyVer = false) := by
  have hmem_of : (filesOpt.getD [] = [] ∨
      (filesOpt.getD []).any (fileAccepts pk pyVer) = true) →
      ver ∈ (fetch_pypi pk pyVer (.status 200 (some data))).1 := by
    intro hcompat
    rw [fetch_pypi_ok_fst, mem_pySortedSetV]
    refine mem_fetchLoop_of_entry pk pyVer hmem ?_
    rw [releaseStep_compat pk pyVer v filesOpt ver hp hpre hdev hcompat]
    exact List.mem_singleton_self ver
  constructor
  · intro hemp
    exact hmem_of (Or.inl hemp)
  · intro hvnot
    by_contra hcon
    push_neg at hcon
    by_cases hemp : filesOpt.getD [] = []
    · exact hvnot (hmem_of (Or.inl hemp))
    · rcases hcon hemp with ⟨f, hf, hfr⟩
      have hacc := fileAccepts_of_not_reject pk pyVer f (by push_neg; exact hfr)
      exact hvnot (hmem_of (Or.inr (List.any_eq_true.mpr ⟨f, hf, hacc⟩)))

/-- Witness instantiating `fetch_pypi_empty_files_compatible` at the
release "1.0" of `preIndexData`, whose file list is empty. -/
theorem fetch_pypi_empty_files_compatible_witness :
    ((some [] : Option (List ReleaseFile)).getD [] = [] →
      10 ∈ (fetch_pypi toyPackaging "3.10" (.status 200 (some preIndexData))).1) ∧
    (10 ∉ (fetch_pypi toyPackaging "3.10" (.status 200 (some preIndexData))).1 →
      (some [] : Option (List ReleaseFile)).getD [] ≠ [] ∧
      ∀ f ∈ (some [] : Option (List ReleaseFile)).getD [],
        ∃ rp, f.requires_python = some rp ∧ rp ≠ "" ∧
        ∃ sp, toyPackaging.parseSpec rp = some sp ∧
          toyPackaging.specContains sp "3.10" = false) :=
  fetch_pypi_empty_files_compatible toyPackaging "3.10" preIndexData "1.0"
    (some []) 10 (by decide) (by decide) (by decide) (by decide)

/-! ### The per-package PyPI stage of `main` -/

/-- `SourceConstraint` of `comfyui_pip_update_audit.py`: one requirement
line's origin and its specifier set. -/
structure SourceConstraint (V : Type) where
  repo : String
  file : String
  spec : SpecSet V

/-- `PackageReport` of `comfyui_pip_update_audit.py`. -/
structure PackageReport (V : Type) where
  name : String
  installed : Option V
  constraints : List (SourceConstraint V)
  available_versions : List V
  py_incompatible : List String
  prerelease_filtered : List String
  max_allowed : Option V
  installable_max : Option V
  availability_issue : Option String
  update_ok : Option Bool
  update_error : Option String
  reverse_conflicts : List String

/-- `PackageReport(n, installed, constraints)` with the dataclass's default
field values, as created in `main` before the PyPI stage. -/
def PackageReport.mkFresh {V : Type} (name : String) (installed : Option V)
    (constraints : List (SourceConstraint V)) : PackageReport V :=
  ⟨name, installed, constraints, [], [], [], none, none, none, none, none, []⟩

/-- One iteration of the "PyPI info" loop of `main` (the body run for one
package): fetch the index data, store the three `fetch_pypi` lists, set
`max_allowed`/`installable_max` from `choose_max` over the non-empty
constraint specifiers, and set `update_error` exactly when the specifiers
are non-empty but infeasible (distinguishing an empty version list from a
non-empty one) or when all releases were dropped as Python-incompatible. -/
def pypiStage {V S : Type} [LinearOrder V] (pk : Packaging V S)
    (pyVer : String) (fetch : String → FetchResponse)
    (rpt : PackageReport V) : PackageReport V :=
  let r := fetch_pypi pk pyVer (fetch rpt.name)
  let vs := r.1
  let skipped := r.2.1
  let filtered := r.2.2
  let specs := (rpt.constraints.filter fun c => c.spec.str ≠ "").map (·.spec)
  let maxAllowed := choose_max vs specs
  let updateError :=
    if (!specs.isEmpty && maxAllowed.isNone) = true then
      let uniq := String.intercalate ", " (pySortedSet (specs.map (·.str)))
      if vs.isEmpty = true then
        some ("No releases found on PyPI; constraint(s): " ++ uniq)
      else
        let latest := match vs.getLast? with
          | some l => pk.verStr l
          | none => ""
        some ("No release satisfies " ++ uniq ++ "; latest available is " ++ latest)
    else if (vs.isEmpty && !skipped.isEmpty) = true then
      some "All available releases require a different Python version"
    else rpt.update_error
  { rpt with
    available_versions := vs
    py_incompatible := skipped
    prerelease_filtered := filtered
    max_allowed := maxAllowed
    installable_max := maxAllowed
    update_error := updateError }

/-- The whole "PyPI info" loop: each package's report is transformed by
`pypiStage` independently of every other report (the source iterates the
report dict mutating only the entry of the current name). -/
def pypiLoop {V S : Type} [LinearOrder V] (pk : Packaging V S)
    (pyVer : String) (fetch : String → FetchResponse)
    (reports : List (PackageReport V)) : List (PackageReport V) :=
  reports.map (pypiStage pk pyVer fetch)

/-- The failure paths of `fetch_pypi`'s enclosing `try`: a raised network
exception, a non-200 HTTP status, or malformed JSON. -/
def fetchFailed : FetchResponse → Bool
  | .netError => true
  | .status code body => decide (code ≠ 200) || body.isNone

theorem fetch_pypi_failed_eq {V S : Type} [LinearOrder V] (pk : Packaging V S)
    (pyVer : String) (resp : FetchResponse) (hfail : fetchFailed resp = true) :
    fetch_pypi pk pyVer resp = ([], [], []) := by
  cases resp with
  | netError => rfl
  | status code body =>
    rw [fetchFailed] at hfail
    rcases Bool.or_eq_true_iff.mp hfail with hc | hb
    · simp [fetch_pypi, of_decide_eq_true hc]
    · cases body with
      | none =>
        rcases ne_or_eq code 200 with hc2 | hc2
        · simp [fetch_pypi, hc2]
        · subst hc2; simp [fetch_pypi]
      | some data => simp at hb

/-- A constraint carrying an empty specifier set (a bare requirement line
such as "numpy" with no version bound): `str(spec)` is empty. -/
def bareConstraint : SourceConstraint ℕ := ⟨"ComfyUI", "requirements.txt", ⟨fun _ => true, ""⟩⟩

/-- A fresh report for a package whose only constraint is `bareConstraint`. -/
def bareReport : PackageReport ℕ :=
  PackageReport.mkFresh "numpy" (some 10) [bareConstraint]

/-- Counterexample to claim C8 as stated: for a package whose index query
fails but whose constraints carry no non-empty specifier, the PyPI stage
leaves `available_versions` empty and `max_allowed` null — but attaches
no diagnostic at all: `update_error` stays `none`, because the source
only sets it when the non-empty specifier list is non-empty or when
releases were skipped as incompatible. -/
theorem pypi_failure_without_specs_no_diagnostic :
    (pypiStage toyPackaging "3.10" (fun _ => .netError) bareReport).available_versions = [] ∧
    (pypiStage toyPackaging "3.10" (fun _ => .netError) bareReport).max_allowed = none ∧
    (pypiStage toyPackaging "3.10" (fun _ => .netError) bareReport).update_error = none := by
  refine ⟨rfl, rfl, rfl⟩

/-- Claim C8, amended: for every package whose index query fails (network
error, non-200 status, or malformed JSON) and that has at least one
constraint with a non-empty specifier, the PyPI stage leaves
`available_versions` empty, resolves `max_allowed` to null, and attaches
a diagnostic to `update_error`; and the stage output of every other
package is unaffected by that package's fetch outcome (each report is
transformed independently, so the run continues for all other packages).
Packages with only empty specifiers get no diagnostic (see the
counterexample). -/
theorem pypi_failure_isolated {V S : Type} [LinearOrder V]
    (pk : Packaging V S) (pyVer : String)
    (fetch fetch2 : String → FetchResponse) (rpt : PackageReport V)
    (hfail : fetchFailed (fetch rpt.name) = true)
    (hspec : ∃ c ∈ rpt.constraints, c.spec.str ≠ "") :
    (pypiStage pk pyVer fetch rpt).available_versions = [] ∧
    (pypiStage pk pyVer fetch rpt).max_allowed = none ∧
    (∃ msg, (pypiStage pk pyVer fetch rpt).update_error = some msg) ∧
    ((∀ s, s ≠ rpt.name → fetch2 s = fetch s) →
      ∀ other : PackageReport V, other.name ≠ rpt.name →
        pypiStage pk pyVer fetch2 other = pypiStage pk pyVer fetch other) := by
  have hfq : fetch_pypi pk pyVer (fetch rpt.name) = ([], [], []) :=
    fetch_pypi_failed_eq pk pyVer (fetch rpt.name) hfail
  have hspecs : ((rpt.constraints.filter fun c => c.spec.str ≠ "").map
      (fun c => c.spec)).isEmpty = false := by
    rcases hspec with ⟨c, hc, hstr⟩
    have hcf : c ∈ rpt.constraints.filter fun c => c.spec.str ≠ "" :=
      List.mem_filter.mpr ⟨hc, decide_eq_true hstr⟩
    have : c.spec ∈ (rpt.constraints.filter fun c => c.spec.str ≠ "").map
        (fun c => c.spec) := List.mem_map_of_mem _ hcf
    cases hml : (rpt.constraints.filter fun c => c.spec.str ≠ "").map
        (fun c => c.spec) with
    | nil => rw [hml] at this; simp at this
    | cons x xs => rfl
  refine ⟨?_, ?_, ?_, ?_⟩
  · simp [pypiStage, hfq]
  · simp [pypiStage, hfq, choose_max]
  · refine ⟨"No releases found on PyPI; constraint(s): " ++
      String.intercalate ", " (pySortedSet
        (((rpt.constraints.filter fun c => c.spec.str ≠ "").map
          (fun c => c.spec)).map (fun s => s.str))), ?_⟩
    simp [pypiStage, hfq, choose_max, hspecs]
    intro hall
    rcases hspec with ⟨c, hc, hstr⟩
    exact absurd (hall c hc) hstr
  · intro hagree other hother
    have : fetch2 other.name = fetch other.name := hagree other.name hother
    simp [pypiStage, this]

/-- A constraint carrying the non-empty specifier ">=1" over toy versions. -/
def boundConstraint : SourceConstraint ℕ := ⟨"ComfyUI", "requirements.txt", geOneSpec⟩

/-- A fresh report for a package with the non-empty constraint
`boundConstraint`. -/
def boundReport : PackageReport ℕ :=
  PackageReport.mkFresh "numpy" (some 10) [boundConstraint]

/-- Witness instantiating `pypi_failure_isolated` on a failing fetch and a
report with one non-empty specifier. -/
theorem pypi_failure_isolated_witness :
    (pypiStage toyPackaging "3.10" (fun _ => .netError) boundReport).available_versions = [] ∧
    (pypiStage toyPackaging "3.10" (fun _ => .netError) boundReport).max_allowed = none ∧
    (∃ msg, (pypiStage toyPackaging "3.10" (fun _ => .netError) boundReport).update_error = some msg) ∧
    ((∀ s, s ≠ boundReport.name → (fun _ => FetchResponse.netError) s = (fun _ => FetchResponse.netError) s) →
      ∀ other : PackageReport ℕ, other.name ≠ boundReport.name →
        pypiStage toyPackaging "3.10" (fun _ => FetchResponse.netError) other =
        pypiStage toyPackaging "3.10" (fun _ => FetchResponse.netError) other) :=
  pypi_failure_isolated toyPackaging "3.10" (fun _ => .netError)
    (fun _ => .netError) boundReport rfl
    ⟨boundConstraint, List.mem_cons_self _ _, by decide⟩

/-! ### The candidates loop of `main`: hold / pin / upgrade classification -/

/-- Which list (if any) of the candidates loop a package lands in. The
loop body appends the package to exactly one of `pinned_ok`,
`pinned_mismatch`, `held`, `missing`, `cand` (the pool from which the
subsequent dry-run classification draws `safe`/`risky`/`unknown`) or
`downgrades` — or skips it entirely (`continue` when no target exists, or
fall-through when installed equals the target). -/
inductive Bucket where
  | skippedNoTarget
  | pinnedOk
  | pinnedMismatch
  | held
  | missing
  | upgradeCandidate
  | downgrade
  | upToDate
deriving DecidableEq

/-- The body of the candidates loop of `main` for one package `n` with
report `r`: `tgt = r.installable_max or r.max_allowed`; no target skips;
then the pin check (`n in pin_map`, comparing `str(r.installed)` with the
pinned version string, installed `None` counting as mismatch); then the
hold check (`n in hold_set`); then missing / upgrade / downgrade /
fall-through on the order of installed versus target. `strV` models
`str(...)` on versions. -/
def classifyCandidate {V : Type} [LinearOrder V] (strV : V → String)
    (hold_set : List String) (pin_map : List (String × String))
    (n : String) (r : PackageReport V) : Bucket :=
  let tgt := r.installable_max.orElse fun _ => r.max_allowed
  match tgt with
  | none => .skippedNoTarget
  | some t =>
    match List.lookup n pin_map with
    | some pinned_ver =>
      match r.installed with
      | some iv => if strV iv = pinned_ver then .pinnedOk else .pinnedMismatch
      | none => .pinnedMismatch
    | none =>
      if n ∈ hold_set then .held
      else
        match r.installed with
        | none => .missing
        | some iv =>
          if iv < t then .upgradeCandidate
          else if t < iv then .downgrade
          else .upToDate

/-- A report for a package installed at version 1 with resolved target 2
(installed < max allowed). -/
def holdPinReport : PackageReport ℕ :=
  { PackageReport.mkFresh "numpy" (some 1) [] with
    max_allowed := some 2
    installable_max := some 2 }

/-- Counterexample to claim C4 as stated: a package that is in the hold
set and simultaneously in the pin map, with installed 1 below target 2,
is classified `pinnedMismatch`, not `held` — the pin check runs before
the hold check in the candidates loop, so the hold check is not first. -/
theorem hold_not_first_when_pinned :
    classifyCandidate toString ["numpy"] [("numpy", "1.0")] "numpy" holdPinReport =
      .pinnedMismatch ∧
    Bucket.pinnedMismatch ≠ Bucket.held ∧
    "numpy" ∈ ["numpy"] ∧
    holdPinReport.installed = some 1 ∧
    holdPinReport.max_allowed = some 2 ∧ (1 : ℕ) < 2 := by
  refine ⟨rfl, by decide, by decide, rfl, rfl, by decide⟩

/-- Claim C4, amended: a package in the hold set is never put into the
upgrade-candidate pool (the only pool from which `upgrade_safe` is later
drawn), and it is classified `held` provided it is not also in the pin
map and a target version exists; when it is also pinned, the pin branch
wins (pin precedes hold), and when no target exists it is skipped
unclassified. -/
theorem hold_beats_upgrade {V : Type} [LinearOrder V] (strV : V → String)
    (hold_set : List String) (pin_map : List (String × String))
    (n : String) (r : PackageReport V)
    (hhold : n ∈ hold_set) :
    classifyCandidate strV hold_set pin_map n r ≠ .upgradeCandidate ∧
    (List.lookup n pin_map = none →
      (r.installable_max.orElse fun _ => r.max_allowed).isSome = true →
      classifyCandidate strV hold_set pin_map n r = .held) := by
  constructor
  · cases htgt : r.installable_max.orElse fun _ => r.max_allowed with
    | none => simp [classifyCandidate, htgt]
    | some t =>
      cases hpin2 : List.lookup n pin_map with
      | some pv =>
        cases hinst : r.installed with
        | some iv =>
          simp only [classifyCandidate, htgt, hpin2, hinst]
          split <;> simp
        | none => simp [classifyCandidate, htgt, hpin2, hinst]
      | none => simp [classifyCandidate, htgt, hpin2, hhold]
  · intro hpin htgt
    cases htgt2 : r.installable_max.orElse fun _ => r.max_allowed with
    | none => rw [htgt2] at htgt; simp at htgt
    | some t => simp [classifyCandidate, htgt2, hpin, hhold]

/-- Witness instantiating `hold_beats_upgrade`: held package, empty pin
map, installed 1 below target 2 — classified `held`, not an upgrade
candidate. -/
theorem hold_beats_upgrade_witness :
    classifyCandidate (toString : ℕ → String) ["numpy"] [] "numpy" holdPinReport ≠
      .upgradeCandidate ∧
    (List.lookup "numpy" ([] : List (String × String)) = none →
      (holdPinReport.installable_max.orElse fun _ => holdPinReport.max_allowed).isSome = true →
      classifyCandidate (toString : ℕ → String) ["numpy"] [] "numpy" holdPinReport = .held) :=
  hold_beats_upgrade toString ["numpy"] [] "numpy" holdPinReport (by decide)

/-! ### Hold / pin configuration: `_get_env_key` and `_load_hold_config` -/

/-- A JSON value as found in `config.json`: a string, a list, an object
(association list with distinct keys), or any other value (number, bool,
null), the latter carrying its Python truthiness — the source
distinguishes these shapes via `isinstance` and truthiness tests. -/
inductive JVal where
  | str (s : String)
  | list (xs : List JVal)
  | dict (d : List (String × JVal))
  | other (truthy : Bool)

/-- Python truthiness of a JSON value: the empty string, empty list,
empty dict, `None`, `False` and `0` are falsy. -/
def pyTruthy : JVal → Bool
  | .str s => s ≠ ""
  | .list xs => !xs.isEmpty
  | .dict d => !d.isEmpty
  | .other t => t

/-- `cfg.get(k) or ""`: an absent or falsy value becomes the empty
string, any truthy value is kept as it is (whatever its type). -/
def pyOrEmptyStr : Option JVal → JVal
  | none => .str ""
  | some j => if pyTruthy j then j else .str ""

/-- The guard `isinstance(v, str) and v.strip()`: yields the raw string
when `v` is a string with non-whitespace content, nothing otherwise. -/
def jStrTruthy : JVal → Option String
  | .str s => if pyStrip s ≠ "" then some s else none
  | _ => none

/-- The configuration dict as `_get_env_key` and `_load_hold_config` read
it: every field keeps its raw JSON shape (`none` for an absent key),
because the source reads them dynamically — in particular `env_type` is
consumed without an `isinstance` guard. -/
structure Config where
  env_type : Option JVal
  venv_path : Option JVal
  conda_env_folder : Option JVal
  conda_env : Option JVal
  holds : Option JVal
  hold_packages : Option JVal
  pin_packages : Option JVal

/-- `_get_env_key(cfg)` of `comfyui_pip_update_audit.py`, with
`_norm_env_key` (OS-dependent `normcase`/`normpath` path normalization of
the stripped string) injected as `normKey`. Its first line,
`(cfg.get("env_type") or "").lower()`, has no `isinstance` guard: a
truthy non-string `env_type` raises `AttributeError`, modelled as
`none`. Past that, every read is guarded: a venv environment keys by its
normalized path, else a conda folder by its normalized path, else a
conda name as `conda:<name>`, else "default". -/
def _get_env_key (normKey : String → String) (cfg : Config) : Option String :=
  match pyOrEmptyStr cfg.env_type with
  | .str et =>
    let env_type := asciiLower et
    some (
      match (if env_type = "venv" then jStrTruthy (pyOrEmptyStr cfg.venv_path)
             else none) with
      | some venv => normKey venv
      | none =>
        match jStrTruthy (pyOrEmptyStr cfg.conda_env_folder) with
        | some cf => normKey cf
        | none =>
          match jStrTruthy (pyOrEmptyStr cfg.conda_env) with
          | some ce => "conda:" ++ pyStrip ce
          | none => "default")
  | _ => none

/-- `x if isinstance(x, list) else []` on an optional JSON value. -/
def listOfJ : Option JVal → List JVal
  | some (.list l) => l
  | _ => []

/-- `x if isinstance(x, dict) else {}` on an optional JSON value. -/
def dictOfJ : Option JVal → List (String × JVal)
  | some (.dict d) => d
  | _ => []

/-- `_load_hold_config(cfg)` of `comfyui_pip_update_audit.py`: when
`cfg["holds"]` is a dict holding a dict entry for the current environment
key, the hold list and pin map come from that entry (with `[]`/`{}` for
missing or mistyped fields); in every other case they come from the
top-level `hold_packages`/`pin_packages` keys with the same defaulting.
`_get_env_key` is called only inside the dict branch, so its
`AttributeError` on a truthy non-string `env_type` propagates (modelled
as `none`) exactly when `holds` is a dict. -/
def _load_hold_config (normKey : String → String) (cfg : Config) :
    Option (List JVal × List (String × JVal)) :=
  match cfg.holds with
  | some (.dict d) =>
    (match _get_env_key normKey cfg with
     | none => none
     | some env_key =>
       match List.lookup env_key d with
       | some (.dict e) =>
         some (listOfJ (List.lookup "hold_packages" e),
               dictOfJ (List.lookup "pin_packages" e))
       | _ => some (listOfJ cfg.hold_packages, dictOfJ cfg.pin_packages))
  | _ => some (listOfJ cfg.hold_packages, dictOfJ cfg.pin_packages)

/-- The raise condition of `(cfg.get("env_type") or "").lower()`: the
value is present, truthy, and not a string. -/
def envTypeRaises : Option JVal → Bool
  | some (.str _) => false
  | some j => pyTruthy j
  | none => false

theorem getEnvKey_none_iff (normKey : String → String) (cfg : Config) :
    _get_env_key normKey cfg = none ↔ envTypeRaises cfg.env_type = true := by
  cases he : cfg.env_type with
  | none => simp [_get_env_key, pyOrEmptyStr, envTypeRaises, he]
  | some j =>
    cases j with
    | str s =>
      by_cases ht : pyTruthy (JVal.str s) = true
      · simp [_get_env_key, pyOrEmptyStr, envTypeRaises, he, ht]
      · simp [_get_env_key, pyOrEmptyStr, envTypeRaises, he, ht]
    | list xs =>
      by_cases ht : pyTruthy (JVal.list xs) = true
      · simp [_get_env_key, pyOrEmptyStr, envTypeRaises, he, ht]
      · simp [_get_env_key, pyOrEmptyStr, envTypeRaises, he, ht]
    | dict d =>
      by_cases ht : pyTruthy (JVal.dict d) = true
      · simp [_get_env_key, pyOrEmptyStr, envTypeRaises, he, ht]
      · simp [_get_env_key, pyOrEmptyStr, envTypeRaises, he, ht]
    | other t =>
      cases t
      · simp [_get_env_key, pyOrEmptyStr, envTypeRaises, pyTruthy, he]
      · simp [_get_env_key, pyOrEmptyStr, envTypeRaises, pyTruthy, he]

/-- Claim C10, amended: when `holds` is a dict with a dict entry for the
current environment key, the hold list and pin map come exclusively from
that entry (missing/mistyped fields yielding empty list/map) and the
top-level `hold_packages`/`pin_packages` are ignored (changing them does
not change the result); in every other non-raising case the top-level
keys are used with the same defaulting. The function can however raise:
it raises `AttributeError` (modelled as `none`) exactly when `holds` is
a dict and `env_type` holds a truthy non-string value, because
`_get_env_key` lower-cases `env_type` without an `isinstance` guard. -/
theorem load_hold_config_env_precedence (normKey : String → String)
    (cfg : Config) :
    (∀ d e k, cfg.holds = some (.dict d) →
      _get_env_key normKey cfg = some k →
      List.lookup k d = some (.dict e) →
      _load_hold_config normKey cfg =
        some (listOfJ (List.lookup "hold_packages" e),
          dictOfJ (List.lookup "pin_packages" e)) ∧
      (∀ hp pp, _load_hold_config normKey
          { cfg with hold_packages := hp, pin_packages := pp } =
        _load_hold_config normKey cfg)) ∧
    (∀ d k, cfg.holds = some (.dict d) →
      _get_env_key normKey cfg = some k →
      (∀ e, List.lookup k d ≠ some (.dict e)) →
      _load_hold_config normKey cfg =
        some (listOfJ cfg.hold_packages, dictOfJ cfg.pin_packages)) ∧
    ((∀ d, cfg.holds ≠ some (.dict d)) →
      _load_hold_config normKey cfg =
        some (listOfJ cfg.hold_packages, dictOfJ cfg.pin_packages)) ∧
    (_load_hold_config normKey cfg = none ↔
      (∃ d, cfg.holds = some (.dict d)) ∧
        envTypeRaises cfg.env_type = true) := by
  refine ⟨?_, ?_, ?_, ?_⟩
  · intro d e k hd hk he
    constructor
    · simp [_load_hold_config, hd, hk, he]
    · intro hp pp
      have hk2 : _get_env_key normKey
          { cfg with holds := some (JVal.dict d), hold_packages := hp, pin_packages := pp } =
          _get_env_key normKey cfg := rfl
      simp [_load_hold_config, hd, hk2, hk, he]
  · intro d k hd hk hno
    cases hl : List.lookup k d with
    | none => simp [_load_hold_config, hd, hk, hl]
    | some e =>
      cases e with
      | dict e2 => exact absurd hl (hno e2)
      | str s => simp [_load_hold_config, hd, hk, hl]
      | list l => simp [_load_hold_config, hd, hk, hl]
      | other t => simp [_load_hold_config, hd, hk, hl]
  · intro hnd
    cases hh : cfg.holds with
    | none => simp [_load_hold_config, hh]
    | some j =>
      cases j with
      | dict d => exact absurd hh (hnd d)
      | str s => simp [_load_hold_config, hh]
      | list l => simp [_load_hold_config, hh]
      | other t => simp [_load_hold_config, hh]
  · constructor
    · intro hnone
      cases hh : cfg.holds with
      | none => simp [_load_hold_config, hh] at hnone
      | some j =>
        cases j with
        | dict d =>
          refine ⟨⟨d, rfl⟩, ?_⟩
          rw [← getEnvKey_none_iff normKey cfg]
          cases hk : _get_env_key normKey cfg with
          | none => rfl
          | some k =>
            exfalso
            cases hl : List.lookup k d with
            | none => simp [_load_hold_config, hh, hk, hl] at hnone
            | some e =>
              cases e with
              | dict e2 => simp [_load_hold_config, hh, hk, hl] at hnone
              | str s => simp [_load_hold_config, hh, hk, hl] at hnone
              | list l => simp [_load_hold_config, hh, hk, hl] at hnone
              | other t => simp [_load_hold_config, hh, hk, hl] at hnone
        | str s => simp [_load_hold_config, hh] at hnone
        | list l => simp [_load_hold_config, hh] at hnone
        | other t => simp [_load_hold_config, hh] at hnone
    · rintro ⟨⟨d, hd⟩, hj⟩
      have hk : _get_env_key normKey cfg = none :=
        (getEnvKey_none_iff normKey cfg).mpr hj
      simp [_load_hold_config, hd, hk]

/-- The configuration `{"holds": {}, "env_type": true}` of the
counterexample: `holds` is a dict and `env_type` is a truthy
non-string. -/
def raisingConfig : Config :=
  { env_type := some (.other true)
    venv_path := none
    conda_env_folder := none
    conda_env := none
    holds := some (.dict [])
    hold_packages := none
    pin_packages := none }

/-- Counterexample to claim C10 as stated: `_load_hold_config` is not
exception-free. On `{"holds": {}, "env_type": true}` the `holds` value
is a dict, so `_get_env_key` runs, and its unguarded
`(cfg.get("env_type") or "").lower()` hits the truthy non-string value,
raising `AttributeError` out of `_load_hold_config` (the embedding's
`none`). -/
theorem load_hold_config_raises_on_nonstring_env_type :
    _load_hold_config id raisingConfig = none ∧
    raisingConfig.holds = some (.dict []) ∧
    raisingConfig.env_type = some (.other true) :=
  ⟨rfl, rfl, rfl⟩

/-- The per-environment entry of the demonstration configuration. -/
def demoEntry : List (String × JVal) :=
  [("hold_packages", .list [.str "torch"]),
   ("pin_packages", .dict [("numpy", .str "1.0")])]

/-- A configuration with a venv environment whose key has a dict entry
under `holds`, and with conflicting top-level hold/pin keys that must be
ignored. -/
def demoConfig : Config :=
  { env_type := some (.str "venv")
    venv_path := some (.str "C:/venv")
    conda_env_folder := none
    conda_env := none
    holds := some (.dict [("C:/venv", .dict demoEntry)])
    hold_packages := some (.list [.str "toplevel"])
    pin_packages := none }

/-- Witness instantiating the first conjunct of
`load_hold_config_env_precedence` on `demoConfig` with identity path
normalization. -/
theorem load_hold_config_env_precedence_witness :
    _load_hold_config id demoConfig =
      some (listOfJ (List.lookup "hold_packages" demoEntry),
        dictOfJ (List.lookup "pin_packages" demoEntry)) ∧
    (∀ hp pp, _load_hold_config id
        { demoConfig with hold_packages := hp, pin_packages := pp } =
      _load_hold_config id demoConfig) :=
  (load_hold_config_env_precedence id demoConfig).1
    [("C:/venv", .dict demoEntry)] demoEntry "C:/venv" rfl rfl rfl
/-! ### `requirements_checker/requirements_parser.py` -/

namespace RequirementsParser

/-- `RequirementsParser.normalize_package_name`:
`package_name.lower().replace('-', '_')` — lower-casing followed by
replacing every `-` with `_` (no handling of `.` and no run
collapsing). -/
def normalize_package_name (package_name : String) : String :=
  String.mk (package_name.data.map fun c =>
    let lc := PipAudit.lowerChar c
    if lc = '-' then '_' else lc)

/-- Truthiness of the `Union[str, None]` argument of `parse_version`:
`None` and the empty string are falsy (`if not version_str`). -/
def pyFalsyStr : Option String → Bool
  | none => true
  | some s => s = ""

/-- The tail of the prefix regex `^[vV]?er?\.?\s*` after its mandatory
`e`: an optional `r`, an optional `.`, then a whitespace run, each taken
greedily. -/
def afterE (cs : List Char) : List Char :=
  let cs1 := match cs with | 'r' :: rest => rest | _ => cs
  let cs2 := match cs1 with | '.' :: rest => rest | _ => cs1
  cs2.dropWhile Char.isWhitespace

/-- `re.sub(r'^[vV]?er?\.?\s*', '', s)`: the letter `e` is mandatory in
the pattern, so a bare leading `v` (as in "v1.0") is not stripped; only
prefixes like "ver.", "Ver ", "er", "e." match. -/
def stripVerMarker (cs : List Char) : List Char :=
  match cs with
  | 'v' :: 'e' :: rest => afterE rest
  | 'V' :: 'e' :: rest => afterE rest
  | 'e' :: rest => afterE rest
  | _ => cs

/-- `re.sub(r'[^0-9a-zA-Z\.\-]', '.', s)`: every character outside the
ASCII alphanumerics, `.` and `-` becomes a `.`. -/
def cleanVerChars (cs : List Char) : List Char :=
  cs.map fun c => if c.isAlphanum || c = '.' || c = '-' then c else '.'

/-- The `^\d+[a-zA-Z]$` special case: one or more digits followed by a
single letter is rewritten to `<digits>.0.<index of letter>` with `a`
mapping to 1. -/
def numLetterRewrite (cs : List Char) : List Char :=
  match cs.getLast? with
  | some c =>
    if c.isAlpha ∧ cs.dropLast ≠ [] ∧ cs.dropLast.all Char.isDigit then
      cs.dropLast ++ ('.' :: '0' :: '.' ::
        (toString ((PipAudit.lowerChar c).toNat - 'a'.toNat + 1)).data)
    else cs
  | none => cs

/-- The full preprocessing pipeline `parse_version` applies before
handing the string to `packaging.version.parse`. -/
def pyVerPreprocess (s : String) : String :=
  String.mk (numLetterRewrite (cleanVerChars (stripVerMarker s.data)))

/-- `RequirementsParser.parse_version`, with `packaging.version.parse`
injected as `p` (`none` models a raised `InvalidVersion`) and
`zero = parse('0')`: falsy input yields the sentinel zero version,
otherwise the preprocessed string is parsed, falling back to the
sentinel (with a console warning) when parsing fails. Total by
construction: every input yields a version value. -/
def parse_version {V : Type} (p : String → Option V) (zero : V)
    (version_str : Option String) : V :=
  if pyFalsyStr version_str = true then zero
  else
    match p (pyVerPreprocess (version_str.getD "")) with
    | some v => v
    | none => zero

end RequirementsParser

/-- Claim C6: version parsing is total — for every input (`None`, empty,
or any string) `parse_version` produces a version value rather than
raising: falsy inputs give the sentinel zero version, an unparsable
preprocessed string gives the sentinel zero version, and a parsable one
gives its parse; with a value for every input, sorting over parsed
versions is always defined. -/
theorem parse_version_total {V : Type} (p : String → Option V) (zero : V)
    (input : Option String) :
    (RequirementsParser.pyFalsyStr input = true →
      RequirementsParser.parse_version p zero input = zero) ∧
    (∀ s, input = some s → RequirementsParser.pyFalsyStr input = false →
      (p (RequirementsParser.pyVerPreprocess s) = none →
        RequirementsParser.parse_version p zero input = zero) ∧
      (∀ v, p (RequirementsParser.pyVerPreprocess s) = some v →
        RequirementsParser.parse_version p zero input = v)) := by
  constructor
  · intro hf
    simp [RequirementsParser.parse_version, hf]
  · intro s hs hf
    subst hs
    constructor
    · intro hp
      simp [RequirementsParser.parse_version, hf, hp]
    · intro v hp
      simp [RequirementsParser.parse_version, hf, hp]

/-- A concrete injected parser accepting only "1.0". -/
def demoParse : String → Option ℕ := fun s => if s = "1.0" then some 10 else none

/-- Witness instantiating `parse_version_total` on the unparsable input
"@@@" (preprocessed to "..."), which falls back to the sentinel. -/
theorem parse_version_total_witness :
    RequirementsParser.parse_version demoParse 0 (some "@@@") = 0 :=
  ((parse_version_total demoParse 0 (some "@@@")).2 "@@@" rfl
    (by decide)).1 (by decide)

/-- Counterexample to claim C7 as stated: the requirements_checker's
`normalize_package_name` maps "Pillow-SIMD" and "pillow_simd" to
"pillow_simd" but leaves "pillow.simd" unchanged (it does not touch `.`),
so the three spellings do not share one canonical key under it. -/
theorem normalize_package_name_dot_distinct :
    RequirementsParser.normalize_package_name "Pillow-SIMD" = "pillow_simd" ∧
    RequirementsParser.normalize_package_name "pillow_simd" = "pillow_simd" ∧
    RequirementsParser.normalize_package_name "pillow.simd" = "pillow.simd" ∧
    ("pillow.simd" : String) ≠ "pillow_simd" := by
  decide

/-- Claim C7, amended: the audit script's `_canonicalize_simple` does map
all three spellings to the one canonical key "pillow-simd" by
lower-casing and collapsing separator runs; the requirements_checker's
`normalize_package_name` does not (see the counterexample). -/
theorem canonicalize_simple_collapses_spellings :
    _canonicalize_simple "Pillow-SIMD" = _canonicalize_simple "pillow_simd" ∧
    _canonicalize_simple "pillow_simd" = _canonicalize_simple "pillow.simd" ∧
    _canonicalize_simple "Pillow-SIMD" = "pillow-simd" := by
  decide
